import Mathlib

/-!
Shallow embedding of the NRMS recommendation model
(`src/our_implementation/utils/model.py`): multi-head self-attention,
additive attention pooling, the hierarchical news/user encoder and the
candidate scorer.  Tensors of shape `[d1 × d2 × ...]` are embedded as
functions `Fin d1 → Fin d2 → ... → ℝ`; machine floats are idealised as
real numbers.  Dropout (`nn.Dropout`) is embedded with an explicit
training flag and an explicit Bernoulli keep-mask, so that the random
draw is a parameter rather than hidden state; `torch.softmax` is
embedded with the max-subtraction stabilisation torch performs.
-/

namespace NRMS

/-! ### Flattened-index bookkeeping for `view` / `transpose`

`Tensor.view (A*B, ...)` and the head split/merge both identify
`Fin (A * B)` with pairs `(a, b)` in row-major order: the flat index is
`a * B + b`. -/

/-- Row-major pairing: flat index `a * B + b` of the pair `(a, b)`. -/
def idxPair {A B : ℕ} (a : Fin A) (b : Fin B) : Fin (A * B) :=
  ⟨a.1 * B + b.1, by
    calc a.1 * B + b.1 < a.1 * B + B := Nat.add_lt_add_left b.isLt _
    _ = (a.1 + 1) * B := (Nat.succ_mul a.1 B).symm
    _ ≤ A * B := Nat.mul_le_mul_right B (Nat.succ_le_of_lt a.isLt)⟩

/-- A flat index into `Fin (A * B)` forces `0 < B`. -/
theorem pos_of_fin_mul {A B : ℕ} (i : Fin (A * B)) : 0 < B := by
  rcases Nat.eq_zero_or_pos B with h | h
  · exact absurd i.isLt (by simp [h])
  · exact h

/-- First component of a row-major flat index: `i / B`. -/
def idxFst {A B : ℕ} (i : Fin (A * B)) : Fin A :=
  ⟨i.1 / B, (Nat.div_lt_iff_lt_mul (pos_of_fin_mul i)).2 i.isLt⟩

/-- Second component of a row-major flat index: `i % B`. -/
def idxSnd {A B : ℕ} (i : Fin (A * B)) : Fin B :=
  ⟨i.1 % B, Nat.mod_lt _ (pos_of_fin_mul i)⟩

theorem idxFst_pair {A B : ℕ} (a : Fin A) (b : Fin B) :
    idxFst (idxPair a b) = a := by
  apply Fin.ext
  show (a.1 * B + b.1) / B = a.1
  rw [Nat.mul_comm a.1 B, Nat.mul_add_div (pos_of_fin_mul (idxPair a b)),
    Nat.div_eq_of_lt b.isLt, Nat.add_zero]

theorem idxSnd_pair {A B : ℕ} (a : Fin A) (b : Fin B) :
    idxSnd (idxPair a b) = b := by
  apply Fin.ext
  show (a.1 * B + b.1) % B = b.1
  rw [Nat.mul_comm a.1 B, Nat.mul_add_mod, Nat.mod_eq_of_lt b.isLt]

theorem idxPair_fst_snd {A B : ℕ} (i : Fin (A * B)) :
    idxPair (idxFst i) (idxSnd i) = i := by
  apply Fin.ext
  show i.1 / B * B + i.1 % B = i.1
  rw [Nat.mul_comm]
  exact Nat.div_add_mod i.1 B

/-! ### `nn.Linear` and `nn.Dropout` -/

/-- An `nn.Linear(inDim, outDim)` layer: a weight matrix and a bias. -/
structure Linear (inDim outDim : ℕ) where
  weight : Fin outDim → Fin inDim → ℝ
  bias : Fin outDim → ℝ

/-- Application of a linear layer to one vector: `W v + b`. -/
noncomputable def Linear.apply {inDim outDim : ℕ} (l : Linear inDim outDim)
    (v : Fin inDim → ℝ) : Fin outDim → ℝ :=
  fun j => (∑ k, l.weight j k * v k) + l.bias j

/-- One scalar going through `nn.Dropout(p)`: in training mode a kept
entry is rescaled by `1 / (1 - p)` and a dropped entry becomes `0`; in
eval mode dropout is the identity. -/
noncomputable def dropoutE (training : Bool) (p : ℝ) (keep : Bool) (x : ℝ) : ℝ :=
  if training then (if keep then x / (1 - p) else 0) else x

theorem dropoutE_false (p : ℝ) (keep : Bool) (x : ℝ) :
    dropoutE false p keep x = x := rfl

/-! ### `torch.softmax` along the last axis -/

/-- Largest entry of a vector (the shift torch's softmax subtracts);
`0` on an empty axis. -/
noncomputable def vmax {L : ℕ} (f : Fin L → ℝ) : ℝ :=
  if h : 0 < L then
    Finset.univ.sup' (Finset.univ_nonempty_iff.mpr (Fin.pos_iff_nonempty.mp h)) f
  else 0

theorem vmax_le {L : ℕ} (f : Fin L → ℝ) (j : Fin L) : f j ≤ vmax f := by
  have hL : 0 < L := j.pos
  rw [vmax, dif_pos hL]
  exact Finset.le_sup' f (Finset.mem_univ j)

/-- `torch.softmax` along an axis of length `L`, with the
max-subtraction stabilisation torch uses internally. -/
noncomputable def tsoftmax {L : ℕ} (f : Fin L → ℝ) : Fin L → ℝ :=
  fun j => Real.exp (f j - vmax f) / ∑ k, Real.exp (f k - vmax f)

/-- Textbook softmax, `exp (f j) / Σ exp`, as the spec states it. -/
noncomputable def softmaxSpec {L : ℕ} (f : Fin L → ℝ) : Fin L → ℝ :=
  fun j => Real.exp (f j) / ∑ k, Real.exp (f k)

theorem tsoftmax_eq_softmaxSpec {L : ℕ} (f : Fin L → ℝ) :
    tsoftmax f = softmaxSpec f := by
  funext j
  have hE : Real.exp (vmax f) ≠ 0 := Real.exp_ne_zero _
  have hS : (0 : ℝ) < ∑ k, Real.exp (f k) :=
    Finset.sum_pos (fun k _ => Real.exp_pos _)
      ⟨j, Finset.mem_univ j⟩
  have hsum : (∑ k, Real.exp (f k - vmax f))
      = (∑ k, Real.exp (f k)) / Real.exp (vmax f) := by
    rw [Finset.sum_div]
    exact Finset.sum_congr rfl (fun k _ => Real.exp_sub _ _)
  show Real.exp (f j - vmax f) / ∑ k, Real.exp (f k - vmax f)
      = Real.exp (f j) / ∑ k, Real.exp (f k)
  rw [hsum, Real.exp_sub, div_div_div_comm, div_self hE, div_one]

theorem tsoftmax_sum_one {L : ℕ} (f : Fin L → ℝ) (j : Fin L) :
    (∑ k, tsoftmax f k) = 1 := by
  have hS : (0 : ℝ) < ∑ k, Real.exp (f k - vmax f) :=
    Finset.sum_pos (fun k _ => Real.exp_pos _) ⟨j, Finset.mem_univ j⟩
  show (∑ k, Real.exp (f k - vmax f) / ∑ k, Real.exp (f k - vmax f)) = 1
  rw [← Finset.sum_div, div_self hS.ne']

theorem tsoftmax_nonneg {L : ℕ} (f : Fin L → ℝ) (j : Fin L) :
    0 ≤ tsoftmax f j := by
  have hS : (0 : ℝ) < ∑ k, Real.exp (f k - vmax f) :=
    Finset.sum_pos (fun k _ => Real.exp_pos _) ⟨j, Finset.mem_univ j⟩
  exact div_nonneg (Real.exp_pos _).le hS.le

theorem vmax_comp_perm {L : ℕ} (f : Fin L → ℝ) (σ : Equiv.Perm (Fin L)) :
    vmax (fun l => f (σ l)) = vmax f := by
  rcases Nat.eq_zero_or_pos L with h | h
  · subst h; rw [vmax, vmax]; simp
  · rw [vmax, vmax, dif_pos h, dif_pos h]
    apply le_antisymm
    · exact Finset.sup'_le _ _ (fun b _ => Finset.le_sup' f (Finset.mem_univ (σ b)))
    · refine Finset.sup'_le _ _ (fun b _ => ?_)
      have : f (σ (σ.symm b)) ≤ Finset.univ.sup' _ (fun l => f (σ l)) :=
        Finset.le_sup' (fun l => f (σ l)) (Finset.mem_univ (σ.symm b))
      simpa using this

theorem tsoftmax_comp_perm {L : ℕ} (f : Fin L → ℝ) (σ : Equiv.Perm (Fin L))
    (j : Fin L) : tsoftmax (fun l => f (σ l)) j = tsoftmax f (σ j) := by
  show Real.exp (f (σ j) - vmax (fun l => f (σ l)))
        / ∑ k, Real.exp (f (σ k) - vmax (fun l => f (σ l)))
      = Real.exp (f (σ j) - vmax f) / ∑ k, Real.exp (f k - vmax f)
  rw [vmax_comp_perm f σ,
    Equiv.sum_comp σ (fun k => Real.exp (f k - vmax f))]

/-! ### `SelfAttention` (multi-head scaled dot-product attention)

Mirrors `SelfAttention.forward`: project Q/K/V with the lazily created
`nn.Linear(embedding_dim, head_num * head_dim)` layers, split into heads
(`view` + `transpose(1, 2)`), compute `(Q @ Kᵗ) / sqrt(head_dim)`,
softmax the last axis, dropout, multiply by V, merge heads back
(`transpose(1, 2).contiguous().view(N, L, output_dim)`). -/

/-- The three lazily created projection layers `WQ`, `WK`, `WV` of a
`SelfAttention` module, each `nn.Linear(E, outD)`. -/
structure SAProj (E outD : ℕ) where
  WQ : Linear E outD
  WK : Linear E outD
  WV : Linear E outD

/-- Apply one linear layer position-wise to a `[N × L × E]` tensor. -/
noncomputable def linMap3 {N L E F : ℕ} (l : Linear E F)
    (t : Fin N → Fin L → Fin E → ℝ) : Fin N → Fin L → Fin F → ℝ :=
  fun n i => l.apply (t n i)

/-- `view(N, L, head_num, head_dim).transpose(1, 2)`: split the
projected width into heads and move the head axis forward. -/
def headSplit {N L H D : ℕ} (t : Fin N → Fin L → Fin (H * D) → ℝ) :
    Fin N → Fin H → Fin L → Fin D → ℝ :=
  fun n h l d => t n l (idxPair h d)

/-- `transpose(1, 2).contiguous().view(N, L, head_num * head_dim)`:
merge the heads back into one trailing axis. -/
def headMerge {N L H D : ℕ} (t : Fin N → Fin H → Fin L → Fin D → ℝ) :
    Fin N → Fin L → Fin (H * D) → ℝ :=
  fun n l j => t n (idxFst j) l (idxSnd j)

/-- `torch.matmul(Q, K.transpose(-2, -1)) / np.sqrt(head_dim)`. -/
noncomputable def scaledScores {N H L D : ℕ}
    (Q K : Fin N → Fin H → Fin L → Fin D → ℝ) :
    Fin N → Fin H → Fin L → Fin L → ℝ :=
  fun n h i j => (∑ d, Q n h i d * K n h j d) / Real.sqrt (D : ℝ)

/-- The normalised per-head attention weights
`attn = torch.softmax(scores, dim=-1)` of a `SelfAttention.forward`
call, before dropout. -/
noncomputable def saAttn {N L E : ℕ} (H D : ℕ) (w : SAProj E (H * D))
    (Qseq Kseq : Fin N → Fin L → Fin E → ℝ) :
    Fin N → Fin H → Fin L → Fin L → ℝ :=
  fun n h i =>
    tsoftmax (scaledScores (headSplit (linMap3 w.WQ Qseq))
      (headSplit (linMap3 w.WK Kseq)) n h i)

/-- `SelfAttention.forward` with the projections already materialised;
`mask` is the dropout keep-mask drawn for the attention matrix. -/
noncomputable def SelfAttention.forward {N L E : ℕ} (H D : ℕ)
    (w : SAProj E (H * D)) (training : Bool) (p : ℝ)
    (mask : Fin N → Fin H → Fin L → Fin L → Bool)
    (Qseq Kseq Vseq : Fin N → Fin L → Fin E → ℝ) :
    Fin N → Fin L → Fin (H * D) → ℝ :=
  let V := headSplit (linMap3 w.WV Vseq)
  let attnD := fun n h i j =>
    dropoutE training p (mask n h i j) (saAttn H D w Qseq Kseq n h i j)
  headMerge (fun n h i d => ∑ j, attnD n h i j * V n h j d)

/-! ### `AdditiveAttention` -/

/-- Weights of an `AdditiveAttention` module: `W = nn.Linear(F, Hd)`
and the bias-free scorer `q = nn.Linear(Hd, 1, bias=False)`. -/
structure AAProj (F Hd : ℕ) where
  W : Linear F Hd
  q : Fin Hd → ℝ

/-- The per-position scalar `q(tanh(W(x))).squeeze(-1)`. -/
noncomputable def aaScores {N L F Hd : ℕ} (w : AAProj F Hd)
    (x : Fin N → Fin L → Fin F → ℝ) : Fin N → Fin L → ℝ :=
  fun n l => ∑ k, w.q k * Real.tanh (w.W.apply (x n l) k)

/-- The additive-attention weights `torch.softmax(attn, dim=1)`. -/
noncomputable def aaWeights {N L F Hd : ℕ} (w : AAProj F Hd)
    (x : Fin N → Fin L → Fin F → ℝ) : Fin N → Fin L → ℝ :=
  fun n => tsoftmax (aaScores w x n)

/-- `AdditiveAttention.forward`: weighted sum of `x` along the length
axis by the softmaxed scores, then dropout on the pooled vector. -/
noncomputable def AdditiveAttention.forward {N L F Hd : ℕ} (w : AAProj F Hd)
    (training : Bool) (p : ℝ) (mask : Fin N → Fin F → Bool)
    (x : Fin N → Fin L → Fin F → ℝ) : Fin N → Fin F → ℝ :=
  fun n f =>
    dropoutE training p (mask n f) (∑ l, x n l f * aaWeights w x n l)

/-! ### `NRMSModel`

`V` = vocabulary size, `E` = embedding_dim, `H` = head_num,
`D` = head_dim, `Hd` = attention_hidden_dim.  The user-level
self-attention consumes the news encoder's `H * D`-wide vectors, so its
(lazily sized) projections map `H * D → H * D`. -/

structure NRMSModel (V E H D Hd : ℕ) where
  embedding : Fin V → Fin E → ℝ
  dropout : ℝ
  news_self_att : SAProj E (H * D)
  news_att : AAProj (H * D) Hd
  user_self_att : SAProj (H * D) (H * D)
  user_att : AAProj (H * D) Hd

/-- Dropout keep-masks drawn during one `encode_news` call on a batch
of `N` sequences of `L` tokens: one for the embedding dropout, one
inside the self-attention, one on the pooled vector. -/
structure NewsMasks (N L E H D : ℕ) where
  emb : Fin N → Fin L → Fin E → Bool
  sa : Fin N → Fin H → Fin L → Fin L → Bool
  pool : Fin N → Fin (H * D) → Bool

/-- `NRMSModel.encode_news`: embedding lookup, dropout, self-attention
with the same tensor as Q, K and V, additive pooling. -/
noncomputable def NRMSModel.encode_news {V E H D Hd : ℕ}
    (m : NRMSModel V E H D Hd) (training : Bool) {N L : ℕ}
    (mk : NewsMasks N L E H D) (news_input : Fin N → Fin L → Fin V) :
    Fin N → Fin (H * D) → ℝ :=
  let x0 : Fin N → Fin L → Fin E → ℝ := fun n l => m.embedding (news_input n l)
  let x1 : Fin N → Fin L → Fin E → ℝ :=
    fun n l e => dropoutE training m.dropout (mk.emb n l e) (x0 n l e)
  let x2 := SelfAttention.forward H D m.news_self_att training m.dropout
    mk.sa x1 x1 x1
  AdditiveAttention.forward m.news_att training m.dropout mk.pool x2

/-- `encode_news` on a single sequence, as the batch-of-one call. -/
noncomputable def NRMSModel.encode_news_one {V E H D Hd : ℕ}
    (m : NRMSModel V E H D Hd) (training : Bool) {L : ℕ}
    (mk : NewsMasks 1 L E H D) (tokens : Fin L → Fin V) :
    Fin (H * D) → ℝ :=
  m.encode_news training mk (fun _ => tokens) 0

/-- Restriction of a batch of dropout masks to one batch row. -/
def NewsMasks.row {N L E H D : ℕ} (mk : NewsMasks N L E H D) (n : Fin N) :
    NewsMasks 1 L E H D :=
  ⟨fun _ => mk.emb n, fun _ => mk.sa n, fun _ => mk.pool n⟩

/-- Dropout keep-masks drawn during one `encode_user` call (`Hh` =
history length): masks for the flattened item-level `encode_news` call,
then for the user-level self-attention and pooling. -/
structure UserMasks (N Hh L E H D : ℕ) where
  news : NewsMasks (N * Hh) L E H D
  sa : Fin N → Fin H → Fin Hh → Fin Hh → Bool
  pool : Fin N → Fin (H * D) → Bool

/-- `NRMSModel.encode_user`: flatten `[N × Hh × L]` to `[(N·Hh) × L]`,
encode every historical item, reshape back, self-attention over the
history axis, additive pooling. -/
noncomputable def NRMSModel.encode_user {V E H D Hd : ℕ}
    (m : NRMSModel V E H D Hd) (training : Bool) {N Hh L : ℕ}
    (mk : UserMasks N Hh L E H D)
    (history_input : Fin N → Fin Hh → Fin L → Fin V) :
    Fin N → Fin (H * D) → ℝ :=
  let flatH : Fin (N * Hh) → Fin L → Fin V :=
    fun i l => history_input (idxFst i) (idxSnd i) l
  let news_vectors := m.encode_news training mk.news flatH
  let nv3 : Fin N → Fin Hh → Fin (H * D) → ℝ :=
    fun n h => news_vectors (idxPair n h)
  let user_vector := SelfAttention.forward H D m.user_self_att training
    m.dropout mk.sa nv3 nv3 nv3
  AdditiveAttention.forward m.user_att training m.dropout mk.pool user_vector

/-- Dropout keep-masks for one top-level `forward` call (`M` =
candidate count). -/
structure ForwardMasks (N Hh M L E H D : ℕ) where
  user : UserMasks N Hh L E H D
  cand : NewsMasks (N * M) L E H D

/-- `NRMSModel.forward`: encode the user, flatten and encode the
candidates, and score with
`torch.bmm(news_vectors, user_vector.unsqueeze(2)).squeeze(-1)`. -/
noncomputable def NRMSModel.forward {V E H D Hd : ℕ}
    (m : NRMSModel V E H D Hd) (training : Bool) {N Hh M L : ℕ}
    (mk : ForwardMasks N Hh M L E H D)
    (his_input : Fin N → Fin Hh → Fin L → Fin V)
    (pred_input : Fin N → Fin M → Fin L → Fin V) : Fin N → Fin M → ℝ :=
  let user_vector := m.encode_user training mk.user his_input
  let flatP : Fin (N * M) → Fin L → Fin V :=
    fun i l => pred_input (idxFst i) (idxSnd i) l
  let news_vectors := m.encode_news training mk.cand flatP
  let nv3 : Fin N → Fin M → Fin (H * D) → ℝ :=
    fun n c => news_vectors (idxPair n c)
  fun n c => ∑ f, nv3 n c f * user_vector n f

/-! ### Materialised tensors for shape statements

`tensorNList` lays a `Fin`-indexed tensor out as nested lists, exactly
the nesting `tensor.tolist()` would produce, so shape claims are
statements about list lengths. -/

def tensor2List {N F : ℕ} (t : Fin N → Fin F → ℝ) : List (List ℝ) :=
  (List.finRange N).map fun n => (List.finRange F).map fun f => t n f

def tensor3List {N L F : ℕ} (t : Fin N → Fin L → Fin F → ℝ) :
    List (List (List ℝ)) :=
  (List.finRange N).map fun n =>
    (List.finRange L).map fun l => (List.finRange F).map fun f => t n l f

/-! ### Lazy weight initialisation (`self.WQ is None` in `forward`)

The module state is the `Option`al triple of projections together with
the embedding width they were sized for; `init` models the (seeded,
hence deterministic) `nn.Linear` weight initialiser.  A call whose
trailing input dimension differs from the stored width is the contract
violation the spec declares undefined/erroring: the step returns no
output and leaves the state untouched. -/

/-- One `SelfAttention.forward` call as a state transition: materialise
the projections on first use, then run the pure forward pass. -/
noncomputable def SelfAttention.forwardStep (H D : ℕ)
    (init : (E : ℕ) → SAProj E (H * D))
    (st : Option ((E : ℕ) × SAProj E (H * D)))
    (training : Bool) (p : ℝ) {N L E : ℕ}
    (mask : Fin N → Fin H → Fin L → Fin L → Bool)
    (Qseq Kseq Vseq : Fin N → Fin L → Fin E → ℝ) :
    Option ((E' : ℕ) × SAProj E' (H * D))
      × Option (Fin N → Fin L → Fin (H * D) → ℝ) :=
  match st with
  | none =>
      (some ⟨E, init E⟩,
        some (SelfAttention.forward H D (init E) training p mask Qseq Kseq Vseq))
  | some ⟨E', w⟩ =>
      if h : E' = E then
        (some ⟨E', w⟩,
          some (SelfAttention.forward H D (h ▸ w) training p mask Qseq Kseq Vseq))
      else (some ⟨E', w⟩, none)

/-! ### Verbose shape diagnostics

The `if self.verbose: print(...)` lines emit shape strings and nothing
else; the embedding returns the emitted lines next to the result. -/

/-- Rendering of `torch.Size([...])`. -/
def shapeStr (dims : List ℕ) : String :=
  "torch.Size([" ++ String.intercalate ", " (dims.map toString) ++ "])"

/-- The lines `SelfAttention.forward` prints when `verbose` is set. -/
def saLog (verbose : Bool) (N H L D outD : ℕ) : List String :=
  if verbose then
    ["Q shape: " ++ shapeStr [N, H, L, D],
     "K shape: " ++ shapeStr [N, H, L, D],
     "V shape: " ++ shapeStr [N, H, L, D],
     "Attention shape: " ++ shapeStr [N, H, L, L],
     "Output shape: " ++ shapeStr [N, L, outD]]
  else []

/-- The lines `AdditiveAttention.forward` prints when `verbose` is set. -/
def aaLog (verbose : Bool) (N L F : ℕ) : List String :=
  if verbose then
    ["Attention weights shape: " ++ shapeStr [N, L, 1],
     "Input shape: " ++ shapeStr [N, L, F],
     "Output shape: " ++ shapeStr [N, F]]
  else []

/-- `SelfAttention.forward` as a state transition together with its
diagnostic output. -/
noncomputable def SelfAttention.forwardStepV (verbose : Bool) (H D : ℕ)
    (init : (E : ℕ) → SAProj E (H * D))
    (st : Option ((E : ℕ) × SAProj E (H * D)))
    (training : Bool) (p : ℝ) {N L E : ℕ}
    (mask : Fin N → Fin H → Fin L → Fin L → Bool)
    (Qseq Kseq Vseq : Fin N → Fin L → Fin E → ℝ) :
    (Option ((E' : ℕ) × SAProj E' (H * D))
      × Option (Fin N → Fin L → Fin (H * D) → ℝ)) × List String :=
  (SelfAttention.forwardStep H D init st training p mask Qseq Kseq Vseq,
    saLog verbose N H L D (H * D))

/-- `AdditiveAttention.forward` together with its diagnostic output. -/
noncomputable def AdditiveAttention.forwardV (verbose : Bool)
    {N L F Hd : ℕ} (w : AAProj F Hd) (training : Bool) (p : ℝ)
    (mask : Fin N → Fin F → Bool) (x : Fin N → Fin L → Fin F → ℝ) :
    (Fin N → Fin F → ℝ) × List String :=
  (AdditiveAttention.forward w training p mask x, aaLog verbose N L F)

/-! ### Helper lemmas -/

/-- Each batch row of `encode_news` is the batch-of-one encoding of
that row: every operation in the pipeline acts row-wise. -/
theorem encode_news_apply {V E H D Hd : ℕ} (m : NRMSModel V E H D Hd)
    (training : Bool) {N L : ℕ} (mk : NewsMasks N L E H D)
    (inp : Fin N → Fin L → Fin V) (n : Fin N) :
    m.encode_news training mk inp n
      = m.encode_news_one training (mk.row n) (inp n) := rfl

/-- With `training = false` every dropout is the identity, so
`encode_news` is the plain embed → self-attend → pool pipeline. -/
theorem encode_news_eval {V E H D Hd : ℕ} (m : NRMSModel V E H D Hd)
    {N L : ℕ} (mk : NewsMasks N L E H D) (inp : Fin N → Fin L → Fin V) :
    m.encode_news false mk inp =
      AdditiveAttention.forward m.news_att false m.dropout mk.pool
        (SelfAttention.forward H D m.news_self_att false m.dropout mk.sa
          (fun n l => m.embedding (inp n l)) (fun n l => m.embedding (inp n l))
          (fun n l => m.embedding (inp n l))) := rfl

/-- With dropout in eval mode, `SelfAttention.forward` does not depend
on the drawn keep-mask. -/
theorem selfAttention_forward_mask_irrel {N L E H D : ℕ}
    (w : SAProj E (H * D)) (p : ℝ)
    (m1 m2 : Fin N → Fin H → Fin L → Fin L → Bool)
    (Qseq Kseq Vseq : Fin N → Fin L → Fin E → ℝ) :
    SelfAttention.forward H D w false p m1 Qseq Kseq Vseq
      = SelfAttention.forward H D w false p m2 Qseq Kseq Vseq := by
  funext n l j
  simp only [SelfAttention.forward, headMerge, dropoutE_false]

/-- With dropout in eval mode, `AdditiveAttention.forward` does not
depend on the drawn keep-mask. -/
theorem additiveAttention_forward_mask_irrel {N L F Hd : ℕ}
    (w : AAProj F Hd) (p : ℝ) (m1 m2 : Fin N → Fin F → Bool)
    (x : Fin N → Fin L → Fin F → ℝ) :
    AdditiveAttention.forward w false p m1 x
      = AdditiveAttention.forward w false p m2 x := by
  funext n f
  simp only [AdditiveAttention.forward, dropoutE_false]

/-- With dropout in eval mode, `encode_news` does not depend on the
drawn keep-masks. -/
theorem encode_news_mask_irrel {V E H D Hd : ℕ} (m : NRMSModel V E H D Hd)
    {N L : ℕ} (mk1 mk2 : NewsMasks N L E H D)
    (inp : Fin N → Fin L → Fin V) :
    m.encode_news false mk1 inp = m.encode_news false mk2 inp := by
  rw [encode_news_eval, encode_news_eval,
    selfAttention_forward_mask_irrel m.news_self_att m.dropout mk1.sa mk2.sa]
  exact additiveAttention_forward_mask_irrel m.news_att m.dropout
    mk1.pool mk2.pool _

/-- With dropout in eval mode, `encode_user` does not depend on the
drawn keep-masks. -/
theorem encode_user_mask_irrel {V E H D Hd : ℕ} (m : NRMSModel V E H D Hd)
    {N Hh L : ℕ} (mk1 mk2 : UserMasks N Hh L E H D)
    (his : Fin N → Fin Hh → Fin L → Fin V) :
    m.encode_user false mk1 his = m.encode_user false mk2 his := by
  show AdditiveAttention.forward m.user_att false m.dropout mk1.pool
      (SelfAttention.forward H D m.user_self_att false m.dropout mk1.sa
        (fun n h => m.encode_news false mk1.news
          (fun i l => his (idxFst i) (idxSnd i) l) (idxPair n h))
        (fun n h => m.encode_news false mk1.news
          (fun i l => his (idxFst i) (idxSnd i) l) (idxPair n h))
        (fun n h => m.encode_news false mk1.news
          (fun i l => his (idxFst i) (idxSnd i) l) (idxPair n h)))
    = AdditiveAttention.forward m.user_att false m.dropout mk2.pool
      (SelfAttention.forward H D m.user_self_att false m.dropout mk2.sa
        (fun n h => m.encode_news false mk2.news
          (fun i l => his (idxFst i) (idxSnd i) l) (idxPair n h))
        (fun n h => m.encode_news false mk2.news
          (fun i l => his (idxFst i) (idxSnd i) l) (idxPair n h))
        (fun n h => m.encode_news false mk2.news
          (fun i l => his (idxFst i) (idxSnd i) l) (idxPair n h)))
  rw [encode_news_mask_irrel m mk1.news mk2.news,
    selfAttention_forward_mask_irrel m.user_self_att m.dropout mk1.sa mk2.sa]
  exact additiveAttention_forward_mask_irrel m.user_att m.dropout
    mk1.pool mk2.pool _

/-- With dropout in eval mode, the top-level `forward` does not depend
on the drawn keep-masks. -/
theorem nrms_forward_mask_irrel {V E H D Hd : ℕ} (m : NRMSModel V E H D Hd)
    {N Hh M L : ℕ} (mk1 mk2 : ForwardMasks N Hh M L E H D)
    (his : Fin N → Fin Hh → Fin L → Fin V)
    (pred : Fin N → Fin M → Fin L → Fin V) :
    m.forward false mk1 his pred = m.forward false mk2 his pred := by
  show (fun n c => ∑ f, m.encode_news false mk1.cand
        (fun i l => pred (idxFst i) (idxSnd i) l) (idxPair n c) f
      * m.encode_user false mk1.user his n f)
    = fun n c => ∑ f, m.encode_news false mk2.cand
        (fun i l => pred (idxFst i) (idxSnd i) l) (idxPair n c) f
      * m.encode_user false mk2.user his n f
  rw [encode_news_mask_irrel m mk1.cand mk2.cand,
    encode_user_mask_irrel m mk1.user mk2.user]

/-- The top-level score of candidate `(n, c)` is the dot product of
that candidate's item vector with user `n`'s vector. -/
theorem nrms_forward_row {V E H D Hd : ℕ} (m : NRMSModel V E H D Hd)
    (training : Bool) {N Hh M L : ℕ} (mk : ForwardMasks N Hh M L E H D)
    (his : Fin N → Fin Hh → Fin L → Fin V)
    (pred : Fin N → Fin M → Fin L → Fin V) (n : Fin N) (c : Fin M) :
    m.forward training mk his pred n c =
      ∑ f, m.encode_news_one training (mk.cand.row (idxPair n c)) (pred n c) f
        * m.encode_user training mk.user his n f := by
  show (∑ f, m.encode_news training mk.cand
        (fun i l => pred (idxFst i) (idxSnd i) l) (idxPair n c) f
      * m.encode_user training mk.user his n f) = _
  simp only [encode_news_apply, idxFst_pair, idxSnd_pair]

/-- Permuting all three input sequences position-wise permutes the
attention weights: `attn'[i][j] = attn[σ i][σ j]`. -/
theorem saAttn_perm {N L E H D : ℕ} (w : SAProj E (H * D))
    (σ : Fin N → Equiv.Perm (Fin L))
    (Qseq Kseq : Fin N → Fin L → Fin E → ℝ)
    (n : Fin N) (h : Fin H) (i j : Fin L) :
    saAttn H D w (fun n l => Qseq n (σ n l)) (fun n l => Kseq n (σ n l)) n h i j
      = saAttn H D w Qseq Kseq n h (σ n i) (σ n j) := by
  show tsoftmax (fun j' => scaledScores (headSplit (linMap3 w.WQ Qseq))
      (headSplit (linMap3 w.WK Kseq)) n h (σ n i) (σ n j')) j = _
  exact tsoftmax_comp_perm _ (σ n) j

/-- Self-attention without masking or positional encoding is
permutation-equivariant along the sequence axis (dropout disabled). -/
theorem selfAttention_forward_perm {N L E H D : ℕ} (w : SAProj E (H * D))
    (p : ℝ) (m1 m2 : Fin N → Fin H → Fin L → Fin L → Bool)
    (σ : Fin N → Equiv.Perm (Fin L))
    (Qseq Kseq Vseq : Fin N → Fin L → Fin E → ℝ)
    (n : Fin N) (l : Fin L) (j : Fin (H * D)) :
    SelfAttention.forward H D w false p m1 (fun n l => Qseq n (σ n l))
      (fun n l => Kseq n (σ n l)) (fun n l => Vseq n (σ n l)) n l j
    = SelfAttention.forward H D w false p m2 Qseq Kseq Vseq n (σ n l) j := by
  simp only [SelfAttention.forward, headMerge, dropoutE_false]
  calc (∑ j', saAttn H D w (fun n l => Qseq n (σ n l))
        (fun n l => Kseq n (σ n l)) n (idxFst j) l j'
      * headSplit (linMap3 w.WV (fun n l => Vseq n (σ n l))) n (idxFst j) j' (idxSnd j))
      = ∑ j', saAttn H D w Qseq Kseq n (idxFst j) (σ n l) (σ n j')
        * headSplit (linMap3 w.WV Vseq) n (idxFst j) (σ n j') (idxSnd j) :=
        Finset.sum_congr rfl (fun j' _ => by rw [saAttn_perm]; rfl)
    _ = ∑ j', saAttn H D w Qseq Kseq n (idxFst j) (σ n l) j'
        * headSplit (linMap3 w.WV Vseq) n (idxFst j) j' (idxSnd j) :=
        Equiv.sum_comp (σ n) (fun j' => saAttn H D w Qseq Kseq n (idxFst j) (σ n l) j'
          * headSplit (linMap3 w.WV Vseq) n (idxFst j) j' (idxSnd j))

/-- Additive pooling is invariant under position permutations of its
input (dropout disabled). -/
theorem additiveAttention_forward_perm {N L F Hd : ℕ} (w : AAProj F Hd)
    (p : ℝ) (m1 m2 : Fin N → Fin F → Bool)
    (σ : Fin N → Equiv.Perm (Fin L)) (x : Fin N → Fin L → Fin F → ℝ) :
    AdditiveAttention.forward w false p m1 (fun n l => x n (σ n l))
      = AdditiveAttention.forward w false p m2 x := by
  funext n f
  simp only [AdditiveAttention.forward, dropoutE_false]
  have hw : ∀ l, aaWeights w (fun n l => x n (σ n l)) n l
      = aaWeights w x n (σ n l) := by
    intro l
    show tsoftmax (fun l' => aaScores w x n (σ n l')) l = _
    exact tsoftmax_comp_perm _ (σ n) l
  calc (∑ l, x n (σ n l) f * aaWeights w (fun n l => x n (σ n l)) n l)
      = ∑ l, x n (σ n l) f * aaWeights w x n (σ n l) :=
        Finset.sum_congr rfl (fun l _ => by rw [hw])
    _ = ∑ l, x n l f * aaWeights w x n l :=
        Equiv.sum_comp (σ n) (fun l => x n l f * aaWeights w x n l)

/-! ## Claims -/

/-- C4: in every `SelfAttention.forward` call, each row of the per-head
attention weight matrix produced by the softmax — for every batch
instance, head and query position — sums to 1 and has only
non-negative entries. -/
theorem saAttn_row_sum_one_nonneg {N L E H D : ℕ} (w : SAProj E (H * D))
    (Qseq Kseq : Fin N → Fin L → Fin E → ℝ) (n : Fin N) (hh : Fin H)
    (i : Fin L) :
    (∑ j, saAttn H D w Qseq Kseq n hh i j) = 1 ∧
      ∀ j, 0 ≤ saAttn H D w Qseq Kseq n hh i j :=
  ⟨tsoftmax_sum_one _ i, fun j => tsoftmax_nonneg _ j⟩

/-- C5: for any batch size `N`, sequence length `L` and embedding width
`E` matching the materialised projections, `SelfAttention.forward`
returns a `[N × L × head_num·head_dim]` tensor — the output width is
`H * D`, fixed by construction, independent of `L` and `E`. -/
theorem selfAttention_forward_shape {N L E H D : ℕ} (w : SAProj E (H * D))
    (training : Bool) (p : ℝ) (mask : Fin N → Fin H → Fin L → Fin L → Bool)
    (Qseq Kseq Vseq : Fin N → Fin L → Fin E → ℝ) :
    (tensor3List (SelfAttention.forward H D w training p mask Qseq Kseq Vseq)).length = N ∧
      ∀ r ∈ tensor3List (SelfAttention.forward H D w training p mask Qseq Kseq Vseq),
        r.length = L ∧ ∀ c ∈ r, c.length = H * D := by
  refine ⟨by simp [tensor3List], ?_⟩
  intro r hr
  simp only [tensor3List, List.mem_map] at hr
  obtain ⟨n, -, rfl⟩ := hr
  refine ⟨by simp, ?_⟩
  intro c hc
  simp only [List.mem_map] at hc
  obtain ⟨l, -, rfl⟩ := hc
  simp

/-- C1: `SelfAttention.forward` computes, entrywise, exactly the
multi-head scaled dot-product attention of the spec: Q, K, V are
projected and split into `H` heads of width `D`, the per-head scores
`(Q · Kᵗ) / sqrt(head_dim)` are softmax-normalised along the last axis,
dropout is applied to the normalised attention matrix, the result
multiplies V, and the heads are recombined into a trailing axis of
width `H * D` (entry `idxPair h d` holds head `h`, coordinate `d`). -/
theorem selfAttention_forward_spec {N L E H D : ℕ} (w : SAProj E (H * D))
    (training : Bool) (p : ℝ) (mask : Fin N → Fin H → Fin L → Fin L → Bool)
    (Qseq Kseq Vseq : Fin N → Fin L → Fin E → ℝ)
    (n : Fin N) (i : Fin L) (h : Fin H) (d : Fin D) :
    SelfAttention.forward H D w training p mask Qseq Kseq Vseq n i (idxPair h d) =
      ∑ j, dropoutE training p (mask n h i j)
          (softmaxSpec (fun j' =>
            (∑ dd, w.WQ.apply (Qseq n i) (idxPair h dd)
              * w.WK.apply (Kseq n j') (idxPair h dd)) / Real.sqrt (D : ℝ)) j)
        * w.WV.apply (Vseq n j) (idxPair h d) := by
  simp only [SelfAttention.forward, headMerge, idxFst_pair, idxSnd_pair,
    saAttn, tsoftmax_eq_softmaxSpec, scaledScores, headSplit, linMap3]
  rfl

/-- C3: for every `[N × L × F]` input with `L ≥ 1`,
`AdditiveAttention.forward` scores each position by the bias-free
linear map `q` applied to `tanh (W x)`, softmax-normalises the scalars
across the length axis (the per-instance weights sum to 1), returns
the weighted sum of `x` along the length axis followed by dropout, and
the output is a `[N × F]` tensor — the length axis is collapsed. -/
theorem additiveAttention_forward_spec {N L F Hd : ℕ} (w : AAProj F Hd)
    (training : Bool) (p : ℝ) (mask : Fin N → Fin F → Bool)
    (x : Fin N → Fin L → Fin F → ℝ) (hL : 0 < L) :
    (∀ n, (∑ l, aaWeights w x n l) = 1) ∧
    (∀ n f, AdditiveAttention.forward w training p mask x n f =
      dropoutE training p (mask n f)
        (∑ l, x n l f * softmaxSpec
          (fun l' => ∑ k, w.q k * Real.tanh (w.W.apply (x n l') k)) l)) ∧
    (tensor2List (AdditiveAttention.forward w training p mask x)).length = N ∧
    (∀ r ∈ tensor2List (AdditiveAttention.forward w training p mask x),
      r.length = F) := by
  refine ⟨fun n => tsoftmax_sum_one _ ⟨0, hL⟩, fun n f => ?_, by simp [tensor2List], ?_⟩
  · simp only [AdditiveAttention.forward, aaWeights, tsoftmax_eq_softmaxSpec]
    rfl
  · intro r hr
    simp only [tensor2List, List.mem_map] at hr
    obtain ⟨n, -, rfl⟩ := hr
    simp

/-- Concrete instances used by the witnesses. -/
def l0 : Linear 1 1 := ⟨fun _ _ => 0, fun _ => 0⟩

def aa0 : AAProj 1 1 := ⟨l0, fun _ => 0⟩

def x0T : Fin 1 → Fin 1 → Fin 1 → ℝ := fun _ _ _ => 0

def am0 : Fin 1 → Fin 1 → Bool := fun _ _ => false

theorem additiveAttention_forward_spec_witness :
    0 < 1 ∧
    ((∀ n, (∑ l, aaWeights aa0 x0T n l) = 1) ∧
    (∀ n f, AdditiveAttention.forward aa0 false 0 am0 x0T n f =
      dropoutE false 0 (am0 n f)
        (∑ l, x0T n l f * softmaxSpec
          (fun l' => ∑ k, aa0.q k * Real.tanh (aa0.W.apply (x0T n l') k)) l)) ∧
    (tensor2List (AdditiveAttention.forward aa0 false 0 am0 x0T)).length = 1 ∧
    (∀ r ∈ tensor2List (AdditiveAttention.forward aa0 false 0 am0 x0T),
      r.length = 1)) :=
  ⟨Nat.one_pos, additiveAttention_forward_spec aa0 false 0 am0 x0T Nat.one_pos⟩

/-- C2: each top-level score `scores[n][c]` is the plain dot product of
candidate `(n, c)`'s item vector (its `encode_news` encoding) with user
`n`'s vector — no activation is applied to the final score. -/
theorem nrms_forward_scores {V E H D Hd : ℕ} (m : NRMSModel V E H D Hd)
    (training : Bool) {N Hh M L : ℕ} (mk : ForwardMasks N Hh M L E H D)
    (his : Fin N → Fin Hh → Fin L → Fin V)
    (pred : Fin N → Fin M → Fin L → Fin V) (n : Fin N) (c : Fin M) :
    m.forward training mk his pred n c =
      ∑ f, m.encode_news_one training (mk.cand.row (idxPair n c)) (pred n c) f
        * m.encode_user training mk.user his n f :=
  nrms_forward_row m training mk his pred n c

/-- C6: the projection weights are created exactly once, at the first
`forward` call, sized from that call's trailing input dimension; a
later call with the same embedding width leaves them untouched and,
the dropout draw being fixed, reproduces the first call's output. -/
theorem selfAttention_lazy_init (H D : ℕ)
    (init : (E' : ℕ) → SAProj E' (H * D)) (training : Bool) (p : ℝ)
    {N L E : ℕ} (mask : Fin N → Fin H → Fin L → Fin L → Bool)
    (Qseq Kseq Vseq : Fin N → Fin L → Fin E → ℝ) :
    (SelfAttention.forwardStep H D init none training p mask Qseq Kseq Vseq).1
      = some ⟨E, init E⟩ ∧
    (∀ w : SAProj E (H * D),
      SelfAttention.forwardStep H D init (some ⟨E, w⟩) training p mask Qseq Kseq Vseq
        = (some ⟨E, w⟩,
            some (SelfAttention.forward H D w training p mask Qseq Kseq Vseq))) ∧
    (SelfAttention.forwardStep H D init
        (SelfAttention.forwardStep H D init none training p mask Qseq Kseq Vseq).1
        training p mask Qseq Kseq Vseq).2
      = (SelfAttention.forwardStep H D init none training p mask Qseq Kseq Vseq).2 := by
  have hsome : ∀ w : SAProj E (H * D),
      SelfAttention.forwardStep H D init (some ⟨E, w⟩) training p mask Qseq Kseq Vseq
        = (some ⟨E, w⟩,
            some (SelfAttention.forward H D w training p mask Qseq Kseq Vseq)) := by
    intro w
    show (if h : E = E then _ else _) = _
    rw [dif_pos rfl]
  refine ⟨rfl, hsome, ?_⟩
  show (SelfAttention.forwardStep H D init (some ⟨E, init E⟩) training p mask Qseq Kseq Vseq).2 = _
  rw [hsome (init E)]
  rfl

/-- C8: with dropout disabled and weights fixed, every operation —
self-attention, additive attention, item encoding, user encoding and
scoring — is independent of the dropout draw, so repeated calls on
identical inputs produce identical outputs. -/
theorem no_dropout_deterministic {V E H D Hd : ℕ} (m : NRMSModel V E H D Hd)
    {N L F Hh M : ℕ} (w : SAProj E (H * D)) (aw : AAProj F Hd) (p : ℝ)
    (s1 s2 : Fin N → Fin H → Fin L → Fin L → Bool)
    (a1 a2 : Fin N → Fin F → Bool)
    (Qseq Kseq Vseq : Fin N → Fin L → Fin E → ℝ)
    (x : Fin N → Fin L → Fin F → ℝ)
    (nk1 nk2 : NewsMasks N L E H D) (inp : Fin N → Fin L → Fin V)
    (uk1 uk2 : UserMasks N Hh L E H D) (his : Fin N → Fin Hh → Fin L → Fin V)
    (fk1 fk2 : ForwardMasks N Hh M L E H D)
    (pred : Fin N → Fin M → Fin L → Fin V) :
    (SelfAttention.forward H D w false p s1 Qseq Kseq Vseq
      = SelfAttention.forward H D w false p s2 Qseq Kseq Vseq) ∧
    (AdditiveAttention.forward aw false p a1 x
      = AdditiveAttention.forward aw false p a2 x) ∧
    (m.encode_news false nk1 inp = m.encode_news false nk2 inp) ∧
    (m.encode_user false uk1 his = m.encode_user false uk2 his) ∧
    (m.forward false fk1 his pred = m.forward false fk2 his pred) :=
  ⟨selfAttention_forward_mask_irrel w p s1 s2 Qseq Kseq Vseq,
    additiveAttention_forward_mask_irrel aw p a1 a2 x,
    encode_news_mask_irrel m nk1 nk2 inp,
    encode_user_mask_irrel m uk1 uk2 his,
    nrms_forward_mask_irrel m fk1 fk2 his pred⟩

/-- C9: with dropout disabled, `encode_news` is invariant under any
permutation of the token positions within each sequence: the embedding
lookup is position-wise, unmasked self-attention without positional
encoding is permutation-equivariant, and additive pooling is a
permutation-invariant weighted sum. -/
theorem encode_news_token_perm {V E H D Hd : ℕ} (m : NRMSModel V E H D Hd)
    {N L : ℕ} (mk1 mk2 : NewsMasks N L E H D)
    (σ : Fin N → Equiv.Perm (Fin L)) (inp : Fin N → Fin L → Fin V) :
    m.encode_news false mk1 (fun n l => inp n (σ n l))
      = m.encode_news false mk2 inp := by
  have hSA : SelfAttention.forward H D m.news_self_att false m.dropout mk1.sa
      (fun n l => m.embedding (inp n (σ n l)))
      (fun n l => m.embedding (inp n (σ n l)))
      (fun n l => m.embedding (inp n (σ n l)))
      = fun n l => SelfAttention.forward H D m.news_self_att false m.dropout mk2.sa
          (fun n' l' => m.embedding (inp n' l'))
          (fun n' l' => m.embedding (inp n' l'))
          (fun n' l' => m.embedding (inp n' l')) n (σ n l) := by
    funext n l j
    exact selfAttention_forward_perm m.news_self_att m.dropout mk1.sa mk2.sa σ
      (fun n' l' => m.embedding (inp n' l')) (fun n' l' => m.embedding (inp n' l'))
      (fun n' l' => m.embedding (inp n' l')) n l j
  calc m.encode_news false mk1 (fun n l => inp n (σ n l))
      = AdditiveAttention.forward m.news_att false m.dropout mk1.pool
          (SelfAttention.forward H D m.news_self_att false m.dropout mk1.sa
            (fun n l => m.embedding (inp n (σ n l)))
            (fun n l => m.embedding (inp n (σ n l)))
            (fun n l => m.embedding (inp n (σ n l)))) := rfl
    _ = AdditiveAttention.forward m.news_att false m.dropout mk1.pool
          (fun n l => SelfAttention.forward H D m.news_self_att false m.dropout mk2.sa
            (fun n' l' => m.embedding (inp n' l'))
            (fun n' l' => m.embedding (inp n' l'))
            (fun n' l' => m.embedding (inp n' l')) n (σ n l)) := by rw [hSA]
    _ = AdditiveAttention.forward m.news_att false m.dropout mk2.pool
          (SelfAttention.forward H D m.news_self_att false m.dropout mk2.sa
            (fun n' l' => m.embedding (inp n' l'))
            (fun n' l' => m.embedding (inp n' l'))
            (fun n' l' => m.embedding (inp n' l'))) :=
        additiveAttention_forward_perm m.news_att m.dropout mk1.pool mk2.pool σ _
    _ = m.encode_news false mk2 inp := rfl

/-- With dropout in eval mode, `encode_news_one` does not depend on
the drawn keep-masks. -/
theorem encode_news_one_mask_irrel {V E H D Hd : ℕ}
    (m : NRMSModel V E H D Hd) {L : ℕ} (mk1 mk2 : NewsMasks 1 L E H D)
    (tokens : Fin L → Fin V) :
    m.encode_news_one false mk1 tokens = m.encode_news_one false mk2 tokens := by
  show m.encode_news false mk1 (fun _ => tokens) 0
      = m.encode_news false mk2 (fun _ => tokens) 0
  rw [encode_news_mask_irrel m mk1 mk2]

/-- C7: for `cand_count ≥ 1` the score tensor has shape exactly
`[batch × cand_count]`, and — weights fixed, dropout disabled —
permuting the candidates along the candidate axis permutes the output
scores correspondingly. -/
theorem nrms_forward_cand_perm {V E H D Hd : ℕ} (m : NRMSModel V E H D Hd)
    {N Hh M L : ℕ} (mk1 mk2 : ForwardMasks N Hh M L E H D)
    (his : Fin N → Fin Hh → Fin L → Fin V)
    (pred : Fin N → Fin M → Fin L → Fin V)
    (σ : Equiv.Perm (Fin M)) (hM : 0 < M) :
    (∀ n c, m.forward false mk1 his (fun n' c' => pred n' (σ c')) n c
      = m.forward false mk2 his pred n (σ c)) ∧
    (tensor2List (m.forward false mk2 his pred)).length = N ∧
    (∀ r ∈ tensor2List (m.forward false mk2 his pred), r.length = M) := by
  refine ⟨fun n c => ?_, by simp [tensor2List], ?_⟩
  · simp only [nrms_forward_row]
    rw [encode_user_mask_irrel m mk1.user mk2.user]
    exact Finset.sum_congr rfl (fun f _ => by
      rw [encode_news_one_mask_irrel m (mk1.cand.row (idxPair n c))
        (mk2.cand.row (idxPair n (σ c)))])
  · intro r hr
    simp only [tensor2List, List.mem_map] at hr
    obtain ⟨n, -, rfl⟩ := hr
    simp

def sa0 : SAProj 1 1 := ⟨l0, l0, l0⟩

def mdl0 : NRMSModel 1 1 1 1 1 := ⟨fun _ _ => 0, 0, sa0, aa0, sa0, aa0⟩

def nm0 : NewsMasks 1 1 1 1 1 :=
  ⟨fun _ _ _ => true, fun _ _ _ _ => true, fun _ _ => true⟩

def um0 : UserMasks 1 1 1 1 1 1 := ⟨nm0, fun _ _ _ _ => true, fun _ _ => true⟩

def fm0 : ForwardMasks 1 1 1 1 1 1 1 := ⟨um0, nm0⟩

def his0 : Fin 1 → Fin 1 → Fin 1 → Fin 1 := fun _ _ _ => 0

def pred0 : Fin 1 → Fin 1 → Fin 1 → Fin 1 := fun _ _ _ => 0

theorem nrms_forward_cand_perm_witness :
    0 < 1 ∧
    ((∀ n c, mdl0.forward false fm0 his0
        (fun n' c' => pred0 n' (Equiv.refl (Fin 1) c')) n c
      = mdl0.forward false fm0 his0 pred0 n (Equiv.refl (Fin 1) c)) ∧
    (tensor2List (mdl0.forward false fm0 his0 pred0)).length = 1 ∧
    (∀ r ∈ tensor2List (mdl0.forward false fm0 his0 pred0), r.length = 1)) :=
  ⟨Nat.one_pos, nrms_forward_cand_perm mdl0 fm0 fm0 his0 pred0
    (Equiv.refl (Fin 1)) Nat.one_pos⟩

/-- C10: the verbose flag is a pure observer — for both attention
modules, runs differing only in `verbose` return the same tensors and
the same final module state, and with `verbose` off no diagnostic line
is emitted while with it on only the shape lines are. -/
theorem verbose_pure_observer (H D : ℕ)
    (init : (E' : ℕ) → SAProj E' (H * D))
    (st : Option ((E' : ℕ) × SAProj E' (H * D))) (training : Bool) (p : ℝ)
    {N L E F Hd : ℕ} (mask : Fin N → Fin H → Fin L → Fin L → Bool)
    (Qseq Kseq Vseq : Fin N → Fin L → Fin E → ℝ)
    (w : AAProj F Hd) (am : Fin N → Fin F → Bool)
    (x : Fin N → Fin L → Fin F → ℝ) :
    ((SelfAttention.forwardStepV true H D init st training p mask Qseq Kseq Vseq).1
      = (SelfAttention.forwardStepV false H D init st training p mask Qseq Kseq Vseq).1) ∧
    ((AdditiveAttention.forwardV true w training p am x).1
      = (AdditiveAttention.forwardV false w training p am x).1) ∧
    ((SelfAttention.forwardStepV false H D init st training p mask Qseq Kseq Vseq).2 = []) ∧
    ((AdditiveAttention.forwardV false w training p am x).2 = []) ∧
    ((SelfAttention.forwardStepV true H D init st training p mask Qseq Kseq Vseq).2
      = saLog true N H L D (H * D)) ∧
    ((AdditiveAttention.forwardV true w training p am x).2 = aaLog true N L F) :=
  ⟨rfl, rfl, rfl, rfl, rfl, rfl⟩

end NRMS
